import Mathlib

/-!
Shallow embedding of `src/Part I/Chapter 3/main.c`, a data-race demonstration:

```c
int shared_data = 0;

void* thread_function(void* arg) {
  shared_data++; // Unsafe write
  return NULL;
}

int main() {
  pthread_t t1, t2;
  pthread_create(&t1, NULL, thread_function, NULL);
  pthread_create(&t2, NULL, thread_function, NULL);
  pthread_join(t1, NULL);
  pthread_join(t2, NULL);
  printf("%d\n", shared_data); // Output is unpredictable
  return 0;
}
```

The embedding is a small-step interleaving semantics.  The non-atomic
increment `shared_data++` is split into two separately schedulable machine
steps: a load of `shared_data` into a thread-local register and a store of
`register + 1` back.  The driver (`main`) is a straight-line program with a
program counter: spawn, spawn, join, join, printf, return.  A schedule is a
list of labels choosing, at each step, either the driver or one worker.
`pthread_create` and `pthread_join` results are modelled by host-outcome
functions; the source ignores every such result, which the driver step
function mirrors.
-/

namespace DataRace

/-- C `void*` values: `NULL` or some address. -/
inductive CPtr where
  | null : CPtr
  | addr : Nat → CPtr
deriving DecidableEq, Repr

/-- Thread-local state of one execution of `thread_function`.
`pc = 0`: about to load `shared_data`; `pc = 1`: the load is done and `reg`
holds the loaded value, about to store `reg + 1`; `pc = 2`: returned.
`arg` is the `void* arg` parameter and `ret` the returned pointer
(`some CPtr.null` once the function has executed `return NULL`). -/
structure WState where
  pc : Nat
  reg : Int
  arg : CPtr
  ret : Option CPtr
deriving DecidableEq, Repr

/-- A freshly spawned execution of `thread_function` with argument `a`. -/
def initW (a : CPtr) : WState :=
  ⟨0, 0, a, none⟩

/-- One machine step of `thread_function` against the shared cell holding `s`:
the load half of `shared_data++`, then the store half together with
`return NULL`; a finished thread takes no further step.  Returns the new
shared-cell value and the new thread-local state. -/
def thread_function_step (s : Int) (w : WState) : Int × WState :=
  match w.pc with
  | 0 => (s, { w with pc := 1, reg := s })
  | 1 => (w.reg + 1, { w with pc := 2, ret := some CPtr.null })
  | _ => (s, w)

/-- Whole-program state: the driver program counter, the global
`int shared_data = 0`, the spawned threads (`none` marks a handle whose
`pthread_create` failed, so no thread runs behind it), the values printed so
far, and the process exit status (`some c` once `main` returned `c`). -/
structure PState where
  dpc : Nat
  shared_data : Int
  workers : List (Option WState)
  out : List Int
  exit : Option Int
deriving DecidableEq, Repr

/-- The initial program state: `shared_data = 0`, nothing spawned, nothing
printed, not exited. -/
def init : PState :=
  ⟨0, 0, [], [], none⟩

/-- One step of `main`, generalized to `n` spawned workers; the source's
`main` is `n = 2`.  `dpc < n`: the `dpc`-th `pthread_create` (when the host
fails it, `spawnOk dpc = false`, no thread is created; the source ignores the
returned error code and continues either way).  `n ≤ dpc < 2*n`: the
`pthread_join` of handle `dpc - n`; a successful join returns only once that
thread has finished, a failing join (`joinOk = false`) or a join of a handle
whose spawn failed returns an error immediately, which the source ignores.
`dpc = 2*n`: `printf("%d\n", shared_data)`.  `dpc = 2*n + 1`: `return 0`. -/
def driver_step (n : Nat) (spawnOk joinOk : Nat → Bool) (σ : PState) : PState :=
  if σ.dpc < n then
    if spawnOk σ.dpc then
      { σ with workers := σ.workers ++ [some (initW CPtr.null)], dpc := σ.dpc + 1 }
    else
      { σ with workers := σ.workers ++ [none], dpc := σ.dpc + 1 }
  else if σ.dpc < 2 * n then
    if joinOk (σ.dpc - n) then
      match σ.workers[σ.dpc - n]? with
      | some (some w) => if w.pc = 2 then { σ with dpc := σ.dpc + 1 } else σ
      | _ => { σ with dpc := σ.dpc + 1 }
    else
      { σ with dpc := σ.dpc + 1 }
  else if σ.dpc = 2 * n then
    { σ with out := σ.out ++ [σ.shared_data], dpc := σ.dpc + 1 }
  else if σ.dpc = 2 * n + 1 then
    { σ with exit := some 0, dpc := σ.dpc + 1 }
  else σ

/-- One machine step of the `i`-th spawned thread; a no-op if no such thread
exists (index out of range, or its spawn failed). -/
def worker_step (σ : PState) (i : Nat) : PState :=
  match σ.workers[i]? with
  | some (some w) =>
      let p := thread_function_step σ.shared_data w
      { σ with shared_data := p.1, workers := σ.workers.set i (some p.2) }
  | _ => σ

/-- One step of the whole program under a scheduling label: `none` runs the
driver, `some i` runs thread `i`. -/
def step (n : Nat) (spawnOk joinOk : Nat → Bool) (σ : PState) :
    Option Nat → PState
  | none => driver_step n spawnOk joinOk σ
  | some i => worker_step σ i

/-- A whole-program step on a host where every spawn and join succeeds. -/
def stepOk (n : Nat) (σ : PState) (l : Option Nat) : PState :=
  step n (fun _ => true) (fun _ => true) σ l

/-- Run the program under a schedule on a fault-free host. -/
def run (n : Nat) (sched : List (Option Nat)) : PState :=
  sched.foldl (stepOk n) init

/-- Run the program under a schedule with the given host spawn/join
outcomes. -/
def runFaulty (n : Nat) (spawnOk joinOk : Nat → Bool)
    (sched : List (Option Nat)) : PState :=
  sched.foldl (fun σ l => step n spawnOk joinOk σ l) init

/-- The bytes `main` writes to standard output: each `printf("%d\n", v)`
emits the decimal representation of `v` followed by one newline. -/
def render (out : List Int) : String :=
  String.join (out.map (fun v => toString v ++ "\n"))

/-- Running one worker alone to completion against a shared cell holding `s`:
the two machine steps of `thread_function` with no interference. -/
def runWorkerAlone (s : Int) (a : CPtr) : Int × WState :=
  let p := thread_function_step s (initW a)
  thread_function_step p.1 p.2

/-- A spawned, not yet started `thread_function` execution (argument `NULL`). -/
def wFresh : Option WState :=
  some ⟨0, 0, CPtr.null, none⟩

/-- A `thread_function` execution that has performed its load, seeing `r`. -/
def wRead (r : Int) : Option WState :=
  some ⟨1, r, CPtr.null, none⟩

/-- A finished `thread_function` execution whose load saw `r`. -/
def wDone (r : Int) : Option WState :=
  some ⟨2, r, CPtr.null, some CPtr.null⟩

/-- The reachable states of the two-worker program (`run 2`), as an explicit
finite set: the inductive invariant used below, closed under every step. -/
def reach2 : List PState :=
  [ ⟨0, 0, [], [], none⟩,
    ⟨1, 0, [wFresh], [], none⟩,
    ⟨1, 0, [wRead 0], [], none⟩,
    ⟨1, 1, [wDone 0], [], none⟩,
    ⟨2, 0, [wFresh, wFresh], [], none⟩,
    ⟨2, 0, [wRead 0, wFresh], [], none⟩,
    ⟨2, 0, [wFresh, wRead 0], [], none⟩,
    ⟨2, 0, [wRead 0, wRead 0], [], none⟩,
    ⟨2, 1, [wDone 0, wFresh], [], none⟩,
    ⟨2, 1, [wFresh, wDone 0], [], none⟩,
    ⟨2, 1, [wDone 0, wRead 0], [], none⟩,
    ⟨2, 1, [wDone 0, wRead 1], [], none⟩,
    ⟨2, 1, [wRead 0, wDone 0], [], none⟩,
    ⟨2, 1, [wRead 1, wDone 0], [], none⟩,
    ⟨2, 1, [wDone 0, wDone 0], [], none⟩,
    ⟨2, 2, [wDone 0, wDone 1], [], none⟩,
    ⟨2, 2, [wDone 1, wDone 0], [], none⟩,
    ⟨3, 1, [wDone 0, wFresh], [], none⟩,
    ⟨3, 1, [wDone 0, wRead 0], [], none⟩,
    ⟨3, 1, [wDone 0, wRead 1], [], none⟩,
    ⟨3, 1, [wDone 0, wDone 0], [], none⟩,
    ⟨3, 2, [wDone 0, wDone 1], [], none⟩,
    ⟨3, 2, [wDone 1, wDone 0], [], none⟩,
    ⟨4, 1, [wDone 0, wDone 0], [], none⟩,
    ⟨4, 2, [wDone 0, wDone 1], [], none⟩,
    ⟨4, 2, [wDone 1, wDone 0], [], none⟩,
    ⟨5, 1, [wDone 0, wDone 0], [1], none⟩,
    ⟨5, 2, [wDone 0, wDone 1], [2], none⟩,
    ⟨5, 2, [wDone 1, wDone 0], [2], none⟩,
    ⟨6, 1, [wDone 0, wDone 0], [1], some 0⟩,
    ⟨6, 2, [wDone 0, wDone 1], [2], some 0⟩,
    ⟨6, 2, [wDone 1, wDone 0], [2], some 0⟩ ]

/-- The reachable states of the one-worker boundary variant (`run 1`). -/
def reach1 : List PState :=
  [ ⟨0, 0, [], [], none⟩,
    ⟨1, 0, [wFresh], [], none⟩,
    ⟨1, 0, [wRead 0], [], none⟩,
    ⟨1, 1, [wDone 0], [], none⟩,
    ⟨2, 1, [wDone 0], [], none⟩,
    ⟨3, 1, [wDone 0], [1], none⟩,
    ⟨4, 1, [wDone 0], [1], some 0⟩ ]

/-- The reachable states of the zero-worker boundary variant (`run 0`). -/
def reach0 : List PState :=
  [ ⟨0, 0, [], [], none⟩,
    ⟨1, 0, [], [0], none⟩,
    ⟨2, 0, [], [0], some 0⟩ ]

/-- A schedule of the two-worker program in which the two increments run one
after the other: both take effect and the program prints 2. -/
def schedSeq : List (Option Nat) :=
  [none, none, some 0, some 0, some 1, some 1, none, none, none, none]

/-- A schedule of the two-worker program in which the two loads both happen
before either store: one update is lost and the program prints 1. -/
def schedLost : List (Option Nat) :=
  [none, none, some 0, some 1, some 0, some 1, none, none, none, none]

/- ## Supporting lemmas -/

theorem worker_step_oob (σ : PState) (i : Nat) (h : σ.workers.length ≤ i) :
    worker_step σ i = σ := by
  unfold worker_step
  rw [List.getElem?_eq_none h]

theorem reach2_closed :
    ∀ σ ∈ reach2, stepOk 2 σ none ∈ reach2 ∧
      stepOk 2 σ (some 0) ∈ reach2 ∧ stepOk 2 σ (some 1) ∈ reach2 := by
  decide

theorem reach2_len : ∀ σ ∈ reach2, σ.workers.length ≤ 2 := by
  decide

theorem reach2_step (σ : PState) (h : σ ∈ reach2) (l : Option Nat) :
    stepOk 2 σ l ∈ reach2 := by
  match l with
  | none => exact (reach2_closed σ h).1
  | some 0 => exact (reach2_closed σ h).2.1
  | some 1 => exact (reach2_closed σ h).2.2
  | some (i + 2) =>
    have : stepOk 2 σ (some (i + 2)) = worker_step σ (i + 2) := rfl
    rw [this, worker_step_oob σ (i + 2) (le_trans (reach2_len σ h) (by omega))]
    exact h

theorem foldl_mem (n : Nat) (R : List PState)
    (hcl : ∀ σ ∈ R, ∀ l, stepOk n σ l ∈ R) :
    ∀ (sched : List (Option Nat)) (σ : PState), σ ∈ R →
      sched.foldl (stepOk n) σ ∈ R := by
  intro sched
  induction sched with
  | nil => intro σ h; simpa using h
  | cons l t ih =>
    intro σ h
    simp only [List.foldl_cons]
    exact ih _ (hcl σ h l)

theorem run2_mem (sched : List (Option Nat)) : run 2 sched ∈ reach2 :=
  foldl_mem 2 reach2 reach2_step sched init (by decide)

theorem reach1_closed :
    ∀ σ ∈ reach1, stepOk 1 σ none ∈ reach1 ∧ stepOk 1 σ (some 0) ∈ reach1 := by
  decide

theorem reach1_len : ∀ σ ∈ reach1, σ.workers.length ≤ 1 := by
  decide

theorem reach1_step (σ : PState) (h : σ ∈ reach1) (l : Option Nat) :
    stepOk 1 σ l ∈ reach1 := by
  match l with
  | none => exact (reach1_closed σ h).1
  | some 0 => exact (reach1_closed σ h).2
  | some (i + 1) =>
    have : stepOk 1 σ (some (i + 1)) = worker_step σ (i + 1) := rfl
    rw [this, worker_step_oob σ (i + 1) (le_trans (reach1_len σ h) (by omega))]
    exact h

theorem run1_mem (sched : List (Option Nat)) : run 1 sched ∈ reach1 :=
  foldl_mem 1 reach1 reach1_step sched init (by decide)

theorem reach0_closed : ∀ σ ∈ reach0, stepOk 0 σ none ∈ reach0 := by
  decide

theorem reach0_len : ∀ σ ∈ reach0, σ.workers.length = 0 := by
  decide

theorem reach0_step (σ : PState) (h : σ ∈ reach0) (l : Option Nat) :
    stepOk 0 σ l ∈ reach0 := by
  match l with
  | none => exact reach0_closed σ h
  | some i =>
    have : stepOk 0 σ (some i) = worker_step σ i := rfl
    rw [this, worker_step_oob σ i (by rw [reach0_len σ h]; omega)]
    exact h

theorem run0_mem (sched : List (Option Nat)) : run 0 sched ∈ reach0 :=
  foldl_mem 0 reach0 reach0_step sched init (by decide)

theorem step_exit (n : Nat) (spawnOk joinOk : Nat → Bool) (σ : PState)
    (l : Option Nat) :
    (step n spawnOk joinOk σ l).exit = σ.exit ∨
      (step n spawnOk joinOk σ l).exit = some 0 := by
  match l with
  | none =>
    simp only [step, driver_step]
    repeat' first | split | left; rfl | right; rfl
  | some i =>
    simp only [step, worker_step]
    split <;> left <;> rfl

theorem foldl_exit (n : Nat) (spawnOk joinOk : Nat → Bool) :
    ∀ (sched : List (Option Nat)) (σ : PState),
      (σ.exit = none ∨ σ.exit = some 0) →
      ((sched.foldl (fun τ l => step n spawnOk joinOk τ l) σ).exit = none ∨
        (sched.foldl (fun τ l => step n spawnOk joinOk τ l) σ).exit = some 0) := by
  intro sched
  induction sched with
  | nil => intro σ h; simpa using h
  | cons l t ih =>
    intro σ h
    simp only [List.foldl_cons]
    rcases step_exit n spawnOk joinOk σ l with h₁ | h₁
    · exact ih _ (h₁ ▸ h)
    · exact ih _ (Or.inr h₁)

theorem runFaulty_exit (n : Nat) (spawnOk joinOk : Nat → Bool)
    (sched : List (Option Nat)) :
    (runFaulty n spawnOk joinOk sched).exit = none ∨
      (runFaulty n spawnOk joinOk sched).exit = some 0 := by
  unfold runFaulty
  exact foldl_exit n spawnOk joinOk sched init (Or.inl rfl)

theorem render_single (v : Int) : render [v] = toString v ++ "\n" := by
  simp [render, String.join]

/-- `true` when a spawned thread has not yet executed any machine step. -/
def unstarted : Option WState → Bool
  | some w => w.pc = 0
  | none => true

/-- `true` when a spawned thread has executed its `return NULL`. -/
def finished : Option WState → Bool
  | some w => w.pc = 2
  | none => true

/- ## The claims -/

/-- C1: in every run of the two-worker program in which both workers have
been joined (the driver is past both `pthread_join`s), the shared cell holds
1 or 2, and every value the program has printed is 1 or 2. -/
theorem final_value_one_or_two (sched : List (Option Nat))
    (h : 4 ≤ (run 2 sched).dpc) :
    ((run 2 sched).shared_data = 1 ∨ (run 2 sched).shared_data = 2) ∧
      ∀ v ∈ (run 2 sched).out, v = 1 ∨ v = 2 := by
  have key : ∀ σ ∈ reach2, 4 ≤ σ.dpc →
      ((σ.shared_data = 1 ∨ σ.shared_data = 2) ∧ ∀ v ∈ σ.out, v = 1 ∨ v = 2) := by
    decide
  exact key _ (run2_mem sched) h

theorem final_value_one_or_two_witness :
    4 ≤ (run 2 schedSeq).dpc ∧
      (((run 2 schedSeq).shared_data = 1 ∨ (run 2 schedSeq).shared_data = 2) ∧
        ∀ v ∈ (run 2 schedSeq).out, v = 1 ∨ v = 2) :=
  ⟨by decide, final_value_one_or_two schedSeq (by decide)⟩

/-- C2: the increment's load and store are separate schedulable steps, so
both final values are reachable: some complete run of the two-worker program
prints 1 (a lost update) and some complete run prints 2. -/
theorem race_both_outcomes_reachable :
    (∃ sched, (run 2 sched).exit = some 0 ∧ (run 2 sched).out = [1]) ∧
      ∃ sched, (run 2 sched).exit = some 0 ∧ (run 2 sched).out = [2] :=
  ⟨⟨schedLost, by decide⟩, ⟨schedSeq, by decide⟩⟩

/-- C3 counterexample: a run in which both `pthread_create` calls fail (so
no worker is ever spawned) still runs `main` to completion and exits with
status 0, because the source ignores the returned error codes. -/
theorem spawn_failure_exit_zero_cex :
    (runFaulty 2 (fun _ => false) (fun _ => true)
        (List.replicate 6 none)).workers = [none, none] ∧
      (runFaulty 2 (fun _ => false) (fun _ => true)
        (List.replicate 6 none)).exit = some 0 := by
  decide

/-- C3 amended: `main` ignores the results of `pthread_create` and
`pthread_join`, so every completed run exits with status 0 regardless of
spawn or join failures; the exit status never distinguishes failure. -/
theorem exit_zero_even_on_host_failure (spawnOk joinOk : Nat → Bool)
    (sched : List (Option Nat)) (c : Int)
    (h : (runFaulty 2 spawnOk joinOk sched).exit = some c) : c = 0 := by
  rcases runFaulty_exit 2 spawnOk joinOk sched with h₁ | h₁ <;> rw [h] at h₁
  · exact Option.noConfusion h₁
  · exact Option.some.inj h₁

theorem exit_zero_even_on_host_failure_witness :
    (runFaulty 2 (fun _ => false) (fun _ => false)
        (List.replicate 6 none)).exit = some 0 ∧ (0 : Int) = 0 :=
  ⟨by decide,
    exit_zero_even_on_host_failure (fun _ => false) (fun _ => false)
      (List.replicate 6 none) 0 (by decide)⟩

/-- C4: on a fault-free host, whenever the two-worker program has returned
from `main` its exit status is 0: `return 0` is the only exit site. -/
theorem exit_always_zero (sched : List (Option Nat)) (c : Int)
    (h : (run 2 sched).exit = some c) : c = 0 := by
  have key : ∀ σ ∈ reach2, σ.exit = none ∨ σ.exit = some 0 := by decide
  rcases key _ (run2_mem sched) with h₁ | h₁ <;> rw [h] at h₁
  · exact Option.noConfusion h₁
  · exact Option.some.inj h₁

theorem exit_always_zero_witness :
    (run 2 schedSeq).exit = some 0 ∧ (0 : Int) = 0 :=
  ⟨by decide, exit_always_zero schedSeq 0 (by decide)⟩

/-- C5: driver sequencing. Initially the cell is 0 and nothing is spawned;
in every reachable state of the two-worker program: while no worker has run
the cell is still 0; once the driver is at or past the first join both
spawns have happened; once it is past both joins (at the read, `dpc ≥ 4`)
both workers are finished; and if anything has been printed the driver is
past the read (`dpc ≥ 5`), hence past both joins, so the printed value never
precedes a join. -/
theorem driver_sequencing (sched : List (Option Nat)) :
    (init.shared_data = 0 ∧ init.workers = []) ∧
      ((run 2 sched).workers.all unstarted = true →
        (run 2 sched).shared_data = 0) ∧
      (2 ≤ (run 2 sched).dpc → (run 2 sched).workers.length = 2) ∧
      (4 ≤ (run 2 sched).dpc → (run 2 sched).workers.all finished = true) ∧
      ((run 2 sched).out ≠ [] →
        5 ≤ (run 2 sched).dpc ∧ (run 2 sched).workers.all finished = true) := by
  have key : ∀ σ ∈ reach2,
      (σ.workers.all unstarted = true → σ.shared_data = 0) ∧
        (2 ≤ σ.dpc → σ.workers.length = 2) ∧
        (4 ≤ σ.dpc → σ.workers.all finished = true) ∧
        (σ.out ≠ [] → 5 ≤ σ.dpc ∧ σ.workers.all finished = true) := by
    decide
  exact ⟨⟨rfl, rfl⟩, key _ (run2_mem sched)⟩

theorem driver_sequencing_witness :
    2 ≤ (run 2 schedSeq).dpc ∧ (run 2 schedSeq).workers.length = 2 :=
  ⟨by decide, (driver_sequencing schedSeq).2.2.1 (by decide)⟩

/-- C6: one isolated execution of `thread_function` on a cell holding `s`
leaves the cell at `s + 1` (exactly one increment), returns `NULL` (no
result value), and once finished takes no further step, so its contribution
is exactly +1. -/
theorem worker_exactly_one_increment (s : Int) (a : CPtr) :
    (runWorkerAlone s a).1 = s + 1 ∧
      (runWorkerAlone s a).2.ret = some CPtr.null ∧
      ∀ (t : Int) (w : WState), w.pc = 2 → thread_function_step t w = (t, w) := by
  refine ⟨rfl, rfl, ?_⟩
  intro t w h
  simp [thread_function_step, h]

theorem worker_exactly_one_increment_witness :
    (⟨2, 0, CPtr.null, some CPtr.null⟩ : WState).pc = 2 ∧
      thread_function_step 5 ⟨2, 0, CPtr.null, some CPtr.null⟩
        = (5, ⟨2, 0, CPtr.null, some CPtr.null⟩) :=
  ⟨rfl, (worker_exactly_one_increment 0 CPtr.null).2.2 5 _ rfl⟩

/-- C7: on the success path (exit status 0) the two-worker program has
printed exactly the post-join cell value, and the bytes on standard output
are exactly its decimal representation followed by one newline. -/
theorem stdout_single_line (sched : List (Option Nat))
    (h : (run 2 sched).exit = some 0) :
    (run 2 sched).out = [(run 2 sched).shared_data] ∧
      render (run 2 sched).out
        = toString (run 2 sched).shared_data ++ "\n" := by
  have key : ∀ σ ∈ reach2, σ.exit = some 0 → σ.out = [σ.shared_data] := by
    decide
  have h₁ := key _ (run2_mem sched) h
  exact ⟨h₁, by rw [h₁, render_single]⟩

theorem stdout_single_line_witness :
    (run 2 schedSeq).exit = some 0 ∧
      ((run 2 schedSeq).out = [(run 2 schedSeq).shared_data] ∧
        render (run 2 schedSeq).out
          = toString (run 2 schedSeq).shared_data ++ "\n") :=
  ⟨by decide, stdout_single_line schedSeq (by decide)⟩

/-- A complete schedule of the one-worker boundary variant. -/
def schedOne : List (Option Nat) :=
  [none, some 0, some 0, none, none, none]

/-- A complete schedule of the zero-worker boundary variant. -/
def schedZero : List (Option Nat) :=
  [none, none]

/-- C8: boundary controls. Every completed run of the one-worker variant
prints exactly 1, and every completed run of the zero-worker variant prints
exactly 0. -/
theorem boundary_zero_one_workers (sched : List (Option Nat)) :
    ((run 1 sched).exit = some 0 → (run 1 sched).out = [1]) ∧
      ((run 0 sched).exit = some 0 → (run 0 sched).out = [0]) := by
  have k1 : ∀ σ ∈ reach1, σ.exit = some 0 → σ.out = [1] := by decide
  have k0 : ∀ σ ∈ reach0, σ.exit = some 0 → σ.out = [0] := by decide
  exact ⟨k1 _ (run1_mem sched), k0 _ (run0_mem sched)⟩

theorem boundary_zero_one_workers_witness :
    ((run 1 schedOne).exit = some 0 ∧ (run 1 schedOne).out = [1]) ∧
      ((run 0 schedZero).exit = some 0 ∧ (run 0 schedZero).out = [0]) :=
  ⟨⟨by decide, (boundary_zero_one_workers schedOne).1 (by decide)⟩,
    ⟨by decide, (boundary_zero_one_workers schedZero).2 (by decide)⟩⟩

/-- C9: `thread_function` never consults its argument: a step taken with
argument `a₁` and the same step taken with argument `a₂` agree on the shared
cell, the program counter, the register, and the returned pointer; and a
complete execution returns `NULL` for every argument. -/
theorem worker_arg_noninterference (a₁ a₂ : CPtr) (s reg : Int) (pc : Nat)
    (r : Option CPtr) :
    ((thread_function_step s ⟨pc, reg, a₁, r⟩).1
        = (thread_function_step s ⟨pc, reg, a₂, r⟩).1) ∧
      ((thread_function_step s ⟨pc, reg, a₁, r⟩).2.pc
        = (thread_function_step s ⟨pc, reg, a₂, r⟩).2.pc) ∧
      ((thread_function_step s ⟨pc, reg, a₁, r⟩).2.reg
        = (thread_function_step s ⟨pc, reg, a₂, r⟩).2.reg) ∧
      ((thread_function_step s ⟨pc, reg, a₁, r⟩).2.ret
        = (thread_function_step s ⟨pc, reg, a₂, r⟩).2.ret) ∧
      (runWorkerAlone s a₁).2.ret = some CPtr.null := by
  match pc with
  | 0 => exact ⟨rfl, rfl, rfl, rfl, rfl⟩
  | 1 => exact ⟨rfl, rfl, rfl, rfl, rfl⟩
  | k + 2 => exact ⟨rfl, rfl, rfl, rfl, rfl⟩

/-- C10: a machine step of thread `i` changes nothing but the shared cell
and thread `i`'s own local state: the driver program counter, the printed
output, the exit status, and every other thread's local state are
unchanged. -/
theorem worker_frame (σ : PState) (i : Nat) :
    (worker_step σ i).dpc = σ.dpc ∧ (worker_step σ i).out = σ.out ∧
      (worker_step σ i).exit = σ.exit ∧
      ∀ j, j ≠ i → (worker_step σ i).workers[j]? = σ.workers[j]? := by
  rcases hw : σ.workers[i]? with - | (- | w)
  · simp [worker_step, hw]
  · simp [worker_step, hw]
  · refine ⟨?_, ?_, ?_, fun j hj => ?_⟩ <;> simp only [worker_step, hw]
    exact List.getElem?_set_ne (fun hh => hj hh.symm)

theorem worker_frame_witness :
    (1 : Nat) ≠ 0 ∧
      (worker_step ⟨2, 0, [wFresh, wFresh], [], none⟩ 0).workers[1]?
        = (⟨2, 0, [wFresh, wFresh], [], none⟩ : PState).workers[1]? :=
  ⟨by decide,
    (worker_frame ⟨2, 0, [wFresh, wFresh], [], none⟩ 0).2.2.2 1 (by decide)⟩

end DataRace
